import Mathlib

/-!
Shallow embedding of the email-archiver synchronization engine:
the Gmail service (`src/services/gmailService.ts`), the Drive service
(`src/services/driveService.ts`), the email store (`src/models/emailModel.ts`),
the per-email job (`src/jobs/processEmail.ts`), the sync orchestrator
(`runEmailSync` in `src/jobs/syncGmail.ts`) and the encryption module
(`src/utils/encryption.ts`). Remote APIs, the database fault modes and the
MIME parser are modelled as explicit environment functions; all repository
control flow is translated directly.
-/

namespace EmailArchiver

/-- JavaScript truthiness of a nullable string: `null` / `undefined` and the
empty string are falsy; every other string is truthy. -/
def truthy : Option String → Bool
  | none => false
  | some s => !(s == "")

/-- A node of the nested MIME part tree of a Gmail message payload: declared
filename, MIME type, the body's remote attachment reference
(`body.attachmentId`), inlined body content (`body.data`), nested parts. -/
inductive MimePart : Type where
  | mk (filename : Option String) (mimeType : Option String)
      (attachmentId : Option String) (bodyData : Option String)
      (parts : List MimePart)

def MimePart.filename : MimePart → Option String
  | .mk f _ _ _ _ => f

def MimePart.mimeType : MimePart → Option String
  | .mk _ m _ _ _ => m

def MimePart.attachmentId : MimePart → Option String
  | .mk _ _ a _ _ => a

def MimePart.bodyData : MimePart → Option String
  | .mk _ _ _ d _ => d

def MimePart.parts : MimePart → List MimePart
  | .mk _ _ _ _ ps => ps

/-- `findAttachments` of `src/jobs/processEmail.ts`: walk the part tree;
collect a part when it has a non-empty declared filename and a
`body.attachmentId` reference; a collected parent is followed by matches from
its own nested parts, then by later siblings (the source pushes into one
shared accumulator in exactly this order). -/
def findAttachments : List MimePart → List MimePart
  | [] => []
  | MimePart.mk f m a d sub :: rest =>
    (if truthy f && truthy a then [MimePart.mk f m a d sub] else [])
      ++ findAttachments sub ++ findAttachments rest

/-- All nodes of a part forest in the traversal order of `findAttachments`
(node, then its subtree, then later siblings). -/
def preorder : List MimePart → List MimePart
  | [] => []
  | MimePart.mk f m a d sub :: rest =>
    MimePart.mk f m a d sub :: (preorder sub ++ preorder rest)

/-- Payload of a fetched Gmail message: the part tree (header parsing is the
external parser's concern and is not materialised here). -/
structure Payload where
  parts : List MimePart

/-- A raw Gmail message as `runEmailSync` and `processAndSaveEmail` see it. -/
structure RawEmail where
  id : Option String
  payload : Option Payload

/-- One remote `users.messages.get` outcome: the message, or an API error
carrying its HTTP code. -/
inductive RemoteGetRes : Type where
  | ok (raw : RawEmail)
  | errCode (code : Nat)

/-- `getEmailContent` of `src/services/gmailService.ts`: `null` for a blank
id, the full message on success, `null` on a 404 (the message vanished), and
a re-raised exception for every other remote error. -/
def getEmailContent (remote : String → RemoteGetRes) (messageId : String) :
    Except Unit (Option RawEmail) :=
  if messageId == "" then .ok none
  else
    match remote messageId with
    | .ok raw => .ok (some raw)
    | .errCode c => if c == 404 then .ok none else .error ()

/-- One remote `users.messages.attachments.get` outcome: the (possibly
absent) base64 payload, or an API error with its HTTP code. -/
inductive RemoteDlRes : Type where
  | ok (data : Option String)
  | errCode (code : Nat)

/-- `downloadAttachment` of `src/services/gmailService.ts`: `null` for blank
ids, `res.data.data || null` on success (an empty payload becomes `null`),
`null` on 404, re-raise every other remote error. -/
def downloadAttachment (remote : String → String → RemoteDlRes)
    (messageId attachmentId : String) : Except Unit (Option String) :=
  if messageId == "" || attachmentId == "" then .ok none
  else
    match remote messageId attachmentId with
    | .ok data =>
      .ok (match data with
        | some s => if s == "" then none else some s
        | none => none)
    | .errCode c => if c == 404 then .ok none else .error ()

/-- The Drive `files.create` response body: optional id and `webViewLink`. -/
structure DriveFile where
  id : Option String
  webViewLink : Option String
deriving DecidableEq

/-- `uploadToDrive` of `src/services/driveService.ts`: throws on blank
arguments, re-raises a remote error, throws when the response lacks the file
id or the `webViewLink`, and otherwise returns the response file data. The
remote call is the environment function `driveResp`. -/
def uploadToDrive
    (driveResp : String → String → String → Except Unit (Option DriveFile))
    (filename mimeType base64data : String) : Except Unit DriveFile :=
  if filename == "" || mimeType == "" || base64data == "" then .error ()
  else
    match driveResp filename mimeType base64data with
    | .error e => .error e
    | .ok none => .error ()
    | .ok (some f) =>
      if truthy f.id && truthy f.webViewLink then .ok f else .error ()

/-- The parsed-email fields taking part in the store's unique constraints
(`parseEmailContent` itself is the external parsing collaborator). -/
structure ParsedEmail where
  gmailId : String
  messageId : Option String
deriving DecidableEq

/-- A stored `Email` row: its database id plus the two unique columns. -/
structure StoredEmail where
  id : Nat
  gmailId : String
  messageId : Option String
deriving DecidableEq

/-- Whether inserting a row with `data`'s unique fields collides with the
existing row `e`: `gmailId` is a unique column and `messageId` a nullable
unique column (two null `messageId`s never collide). -/
def collides (e : StoredEmail) (data : ParsedEmail) : Bool :=
  e.gmailId == data.gmailId ||
    (match data.messageId, e.messageId with
     | some m, some m' => m == m'
     | _, _ => false)

/-- The store triggers the P2002 unique-constraint error for `data`. -/
def hasDup (store : List StoredEmail) (data : ParsedEmail) : Bool :=
  store.any (collides · data)

/-- `saveEmail` of `src/models/emailModel.ts` over the abstract store:
`prisma.email.create` succeeds, raises the P2002 unique-constraint error, or
raises some other database error (injected by `fault`). P2002 is caught and
mapped to `null`; every other error is also caught, logged and mapped to
`null`; only a successful create returns the new row, appended to the
store. The function never raises to its caller. -/
def saveEmail (fault : Bool) (store : List StoredEmail) (data : ParsedEmail) :
    Option StoredEmail × List StoredEmail :=
  if fault then (none, store)
  else if hasDup store data then (none, store)
  else
    let row : StoredEmail := ⟨store.length + 1, data.gmailId, data.messageId⟩
    (some row, store ++ [row])

/-- An `Attachment` row as written by `prisma.attachment.create`. -/
structure AttRecord where
  emailId : Nat
  filename : String
  mimeType : String
  driveId : String
  driveUrl : String
deriving DecidableEq

/-- Environment of `processAndSaveEmail`: the external parser, the fault
injection for `prisma.email.create`, and the two remote services used by the
attachment pipeline. -/
structure ProcEnv where
  parse : RawEmail → Except Unit ParsedEmail
  dbFault : ParsedEmail → Bool
  attRemote : String → String → RemoteDlRes
  driveResp : String → String → String → Except Unit (Option DriveFile)

/-- Effects of the attachment loop: `Attachment` records written, downloads
attempted (message id, attachment id), uploads attempted (filename, MIME
type, data), all in loop order. -/
structure AttEffects where
  records : List AttRecord
  downloads : List (String × String)
  uploads : List (String × String × String)
deriving DecidableEq

/-- The per-part body of the attachment loop of `processAndSaveEmail`:
the malformed-part guard, the download (a raised error is caught by the
per-part `try`), the `!base64data` skip, the upload (ditto), the defensive
re-check of id and link, then `prisma.attachment.create` (modelled as a
reliable store write). Each outcome is this part's effects alone. -/
def processPart (env : ProcEnv) (rawId : String) (emailDbId : Nat)
    (p : MimePart) : AttEffects :=
  if !(truthy p.attachmentId && truthy p.filename && truthy p.mimeType) then
    ⟨[], [], []⟩
  else
    let fn := p.filename.getD ""
    let mt := p.mimeType.getD ""
    let aid := p.attachmentId.getD ""
    match downloadAttachment env.attRemote rawId aid with
    | .error _ => ⟨[], [(rawId, aid)], []⟩
    | .ok none => ⟨[], [(rawId, aid)], []⟩
    | .ok (some data) =>
      match uploadToDrive env.driveResp fn mt data with
      | .error _ => ⟨[], [(rawId, aid)], [(fn, mt, data)]⟩
      | .ok f =>
        if truthy f.id && truthy f.webViewLink then
          ⟨[⟨emailDbId, fn, mt, f.id.getD "", f.webViewLink.getD ""⟩],
            [(rawId, aid)], [(fn, mt, data)]⟩
        else ⟨[], [(rawId, aid)], [(fn, mt, data)]⟩

/-- The attachment loop of `processAndSaveEmail` over a list of discovered
parts: each part contributes its own effects; no part's failure stops the
loop. -/
def processParts (env : ProcEnv) (rawId : String) (emailDbId : Nat) :
    List MimePart → AttEffects
  | [] => ⟨[], [], []⟩
  | p :: rest =>
    let e1 := processPart env rawId emailDbId p
    let e2 := processParts env rawId emailDbId rest
    ⟨e1.records ++ e2.records, e1.downloads ++ e2.downloads,
      e1.uploads ++ e2.uploads⟩

/-- The `Attachment` record a part yields, in closed form mirroring the
spec's per-part contract: present exactly when the part is well-formed and
the download yields data and the Drive upload yields both an id and a
retrievable link. Compared against `processPart` / `processParts`. -/
def partRecord (env : ProcEnv) (rawId : String) (emailDbId : Nat)
    (p : MimePart) : Option AttRecord :=
  if !(truthy p.attachmentId && truthy p.filename && truthy p.mimeType) then
    none
  else
    match downloadAttachment env.attRemote rawId (p.attachmentId.getD "") with
    | .error _ => none
    | .ok none => none
    | .ok (some data) =>
      match uploadToDrive env.driveResp (p.filename.getD "")
          (p.mimeType.getD "") data with
      | .error _ => none
      | .ok f =>
        if truthy f.id && truthy f.webViewLink then
          some ⟨emailDbId, p.filename.getD "", p.mimeType.getD "",
            f.id.getD "", f.webViewLink.getD ""⟩
        else none

/-- Outcome of one `processAndSaveEmail` call: whether a new `Email` row was
written by this call, plus the attachment-pipeline effects. Every internal
failure of the source function is caught inside it, so the call always
returns normally: a caller can never observe an exception from it. -/
structure ProcOutcome where
  emailSaved : Bool
  effects : AttEffects
deriving DecidableEq

def ProcOutcome.noWork : ProcOutcome := ⟨false, ⟨[], [], []⟩⟩

/-- `processAndSaveEmail` of `src/jobs/processEmail.ts`: guard on the raw
message id; parse (a parse exception is caught: stop); save (a `saveEmail`
outcome of `null` — duplicate or absorbed store error — skips all attachment
work); guard on the payload; then discover and process attachments. -/
def processAndSaveEmail (env : ProcEnv) (store : List StoredEmail)
    (rawEmail : RawEmail) : ProcOutcome × List StoredEmail :=
  match rawEmail.id with
  | none => (.noWork, store)
  | some rid =>
    if rid == "" then (.noWork, store)
    else
      match env.parse rawEmail with
      | .error _ => (.noWork, store)
      | .ok parsed =>
        match saveEmail (env.dbFault parsed) store parsed with
        | (none, st') => (.noWork, st')
        | (some saved, st') =>
          match rawEmail.payload with
          | none => (⟨true, ⟨[], [], []⟩⟩, st')
          | some payload =>
            (⟨true, processParts env rid saved.id
              (findAttachments payload.parts)⟩, st')

/-- What reading the singleton OAuth token row yields for a sync cycle: a
database error, no row, or a row with its (possibly null) refresh token.
The stored `lastHistoryId` cursor is threaded as separate state. -/
inductive TokenFetch : Type where
  | dbError
  | noRecord
  | record (refresh : Option String)

/-- Environment of one `runEmailSync` cycle: the token read, the listing
outcome, the remote message fetch, and the per-email processing services. -/
structure SyncEnv where
  tokenFetch : TokenFetch
  listResult : Except Unit (List (Option String) × Option String)
  remoteGet : String → RemoteGetRes
  proc : ProcEnv

/-- Result of the per-message loop of `runEmailSync`. -/
structure BatchResult where
  succeeded : Nat
  failed : Nat
  store : List StoredEmail
  atts : List AttRecord

/-- The per-message loop of `runEmailSync` (`src/jobs/syncGmail.ts`): a
header that is null or lacks a truthy id counts failed; a fetch exception or
a `null` full message counts failed (with a log) and the loop continues;
otherwise `processAndSaveEmail` runs — it always returns normally, so the
per-message `catch` that also covers it never fires for it — and the message
counts succeeded. A header is modelled by its message id, `none` standing
for a null header or a null id field. -/
def processBatch (env : SyncEnv) (headers : List (Option String))
    (store : List StoredEmail) : BatchResult :=
  match headers with
  | [] => ⟨0, 0, store, []⟩
  | h :: rest =>
    match h with
    | none =>
      let r := processBatch env rest store
      ⟨r.succeeded, r.failed + 1, r.store, r.atts⟩
    | some id =>
      if id == "" then
        let r := processBatch env rest store
        ⟨r.succeeded, r.failed + 1, r.store, r.atts⟩
      else
        match getEmailContent env.remoteGet id with
        | .error _ =>
          let r := processBatch env rest store
          ⟨r.succeeded, r.failed + 1, r.store, r.atts⟩
        | .ok none =>
          let r := processBatch env rest store
          ⟨r.succeeded, r.failed + 1, r.store, r.atts⟩
        | .ok (some raw) =>
          let pr := processAndSaveEmail env.proc store raw
          let r := processBatch env rest pr.2
          ⟨r.succeeded + 1, r.failed, r.store, pr.1.effects.records ++ r.atts⟩

/-- Result of one `runEmailSync` cycle: the persisted cursor, the email
store, the two observability counters, and the attachment records written. -/
structure SyncResult where
  cursor : Option String
  emails : List StoredEmail
  succeeded : Nat
  failed : Nat
  atts : List AttRecord

/-- `runEmailSync` of `src/jobs/syncGmail.ts`: abort with the cursor
untouched on a token-read error, a missing row, or a missing/blank refresh
token; abort likewise when the listing call raises; with no listed messages
persist the new `historyId` when it is truthy and differs from the stored
one; otherwise run the batch and afterwards persist the new `historyId`
exactly when it is truthy. -/
def runEmailSync (cursor0 : Option String) (store0 : List StoredEmail)
    (env : SyncEnv) : SyncResult :=
  match env.tokenFetch with
  | .dbError => ⟨cursor0, store0, 0, 0, []⟩
  | .noRecord => ⟨cursor0, store0, 0, 0, []⟩
  | .record refresh =>
    if !(truthy refresh) then ⟨cursor0, store0, 0, 0, []⟩
    else
      match env.listResult with
      | .error _ => ⟨cursor0, store0, 0, 0, []⟩
      | .ok (headers, newHid) =>
        match headers with
        | [] =>
          if truthy newHid && newHid != cursor0 then ⟨newHid, store0, 0, 0, []⟩
          else ⟨cursor0, store0, 0, 0, []⟩
        | _ :: _ =>
          let r := processBatch env headers store0
          if truthy newHid then ⟨newHid, r.store, r.succeeded, r.failed, r.atts⟩
          else ⟨cursor0, r.store, r.succeeded, r.failed, r.atts⟩

/-- The admissible cursor outcome of one cycle, judged against that cycle's
own environment: the cursor is left unchanged, or it is set to the
`newCursor` value this very environment's listing call successfully
returned. -/
def cursorOk (c c' : Option String) (env : SyncEnv) : Prop :=
  c' = c ∨ ∃ (msgs : List (Option String)) (h : String),
    env.listResult = .ok (msgs, some h) ∧ c' = some h

/-- A run of consecutive sync cycles, each starting from the cursor and the
email store the previous one left behind, in which every step's resulting
cursor is admissible (`cursorOk`) for the environment of exactly that
cycle. -/
def CursorEvolution : Option String → List StoredEmail → List SyncEnv → Prop
  | _, _, [] => True
  | c0, store0, env :: rest =>
    cursorOk c0 (runEmailSync c0 store0 env).cursor env ∧
      CursorEvolution (runEmailSync c0 store0 env).cursor
        (runEmailSync c0 store0 env).emails rest

/-- One page of the fallback `messages.list` call: message stubs (each
modelled by its possibly-null id) and the next page token. -/
structure PageRes where
  messages : List (Option String)
  nextPageToken : Option String

/-- What the fallback paging loop of `listNewEmailMessages` produces: the
accumulated stubs, the final next-page token, the number of pages fetched,
and whether the post-loop cap warning fires. -/
structure FallbackOut where
  messages : List (Option String)
  finalToken : Option String
  pages : Nat
  warned : Bool

def MAX_INITIAL_FETCH_PAGES : Nat := 5

/-- The fallback `do … while` of `listNewEmailMessages`: fetch a page,
append its stubs, repeat while a truthy next-page token remains and the page
counter is below the cap; a page exception propagates. `warned` is the
source's post-loop condition `currentPage >= MAX && nextPageToken`. -/
def fallbackLoop (pageEnv : Option String → Except Unit PageRes)
    (tok : Option String) (pageCount : Nat) (acc : List (Option String)) :
    Except Unit FallbackOut :=
  match pageEnv tok with
  | .error e => .error e
  | .ok res =>
    let acc2 := acc ++ res.messages
    let pc := pageCount + 1
    if h : truthy res.nextPageToken = true ∧ pc < MAX_INITIAL_FETCH_PAGES then
      fallbackLoop pageEnv res.nextPageToken pc acc2
    else
      .ok ⟨acc2, res.nextPageToken, pc,
        decide (MAX_INITIAL_FETCH_PAGES ≤ pc) && truthy res.nextPageToken⟩
termination_by MAX_INITIAL_FETCH_PAGES - pageCount
decreasing_by
  simp only [MAX_INITIAL_FETCH_PAGES] at h ⊢
  omega

/-- One record of a `history.list` response: its `messagesAdded` array, each
entry's `message` (when present) carrying its possibly-null id. -/
structure HistoryRecord where
  messagesAdded : Option (List (Option (Option String)))

/-- A `history.list` response: the history records and the new history id. -/
structure HistoryData where
  history : Option (List HistoryRecord)
  historyId : Option String

/-- The nested collection loop of the incremental branch: push every present
`messagesAdded` entry's `message` (keeping one whose id is null), in
response order. -/
def collectAdded (hs : List HistoryRecord) : List (Option String) :=
  hs.foldr (fun r acc =>
    (match r.messagesAdded with
     | none => []
     | some l => l.filterMap id) ++ acc) []

/-- `listNewEmailMessages` of `src/services/gmailService.ts`: with a truthy
`startHistoryId`, incremental mode via `history.list`, returning the
response's new `historyId` verbatim; otherwise the capped fallback paging
with `historyId` `null`. A remote error in either mode propagates to the
caller. -/
def listNewEmailMessages (histEnv : String → Except Unit HistoryData)
    (pageEnv : Option String → Except Unit PageRes)
    (startHistoryId : Option String) :
    Except Unit (List (Option String) × Option String) :=
  if truthy startHistoryId then
    match histEnv (startHistoryId.getD "") with
    | .error e => .error e
    | .ok d => .ok (collectAdded (d.history.getD []), d.historyId)
  else
    match fallbackLoop pageEnv none 0 [] with
    | .error e => .error e
    | .ok out => .ok (out.messages, none)

/-- The AES-256-CBC primitive of the Node `crypto` module, kept abstract: an
encryption and a decryption function over (key, iv, text); decryption may
fail (wrong key or corrupted ciphertext). -/
structure CipherSpec where
  enc : String → String → String → String
  dec : String → String → String → Option String

/-- The process environment as the encryption module reads it at load time:
the two dedicated variables plus the rest of the environment. -/
structure EnvVars where
  encryptionKey : Option String
  encryptionIv : Option String
  other : String → Option String

/-- Module-load validation of `src/utils/encryption.ts`: `ENCRYPTION_KEY`
must be present with 64 hex characters and `ENCRYPTION_IV` present with 32,
else the module throws; on success the module's fixed (key, iv) constants
are exactly the two validated strings. -/
def encryptionInit (env : EnvVars) : Except Unit (String × String) :=
  match env.encryptionKey with
  | none => .error ()
  | some k =>
    if k.length ≠ 64 then .error ()
    else
      match env.encryptionIv with
      | none => .error ()
      | some iv => if iv.length ≠ 32 then .error () else .ok (k, iv)

/-- `encrypt` of `src/utils/encryption.ts`: one `createCipheriv` pass with
the module's fixed key and iv; no per-call randomness enters. -/
def encrypt (c : CipherSpec) (key iv text : String) : String :=
  c.enc key iv text

/-- `decrypt` of `src/utils/encryption.ts`: one `createDecipheriv` pass; a
primitive failure is caught and re-thrown as the re-authentication error. -/
def decrypt (c : CipherSpec) (key iv ct : String) : Except Unit String :=
  match c.dec key iv ct with
  | some p => .ok p
  | none => .error ()

/-- A processing environment that parses a raw message to its Gmail id (no
protocol-level message id), has a reliable store, and whose attachment
remotes always fail. -/
def plainProc : ProcEnv :=
  ⟨fun raw => .ok ⟨raw.id.getD "", none⟩, fun _ => false,
    fun _ _ => .errCode 500, fun _ _ _ => .error ()⟩

/-- A sync environment whose listing succeeds with the given headers and
history id but whose every message fetch raises. -/
def fetchFailEnv (headers : List (Option String)) (hid : Option String) :
    SyncEnv :=
  ⟨.record (some "tok"), .ok (headers, hid), fun _ => .errCode 500, plainProc⟩

/-- The raw message a well-behaved remote returns for an id: the id itself
and an empty payload part tree. -/
def simpleRaw (id : String) : RawEmail := ⟨some id, some ⟨[]⟩⟩

/-- A well-behaved per-id environment: the fetch returns `simpleRaw id`, the
parser maps it to `⟨id, none⟩`, and the store does not fault on it. -/
def GoodId (env : SyncEnv) (id : String) : Prop :=
  env.remoteGet id = .ok (simpleRaw id) ∧
  env.proc.parse (simpleRaw id) = .ok ⟨id, none⟩ ∧
  env.proc.dbFault ⟨id, none⟩ = false

/-- A per-id environment whose fetch step yields no message: the fetch
raises, or it resolves to `null` (e.g. a 404). -/
def BadFetch (env : SyncEnv) (id : String) : Prop :=
  getEmailContent env.remoteGet id = .error () ∨
  getEmailContent env.remoteGet id = .ok none

/-- A sync environment listing ids `a`,`b` with `newCursor` `""`; fetching
`a` succeeds, fetching `b` raises. -/
def oneFailEnv : SyncEnv :=
  ⟨.record (some "tok"), .ok ([some "a", some "b"], some ""),
    fun id => if id == "a" then .ok (simpleRaw "a") else .errCode 500,
    plainProc⟩

/-- Attachment environment for the C5 witness: downloads always yield data;
the upload of `f1.pdf` fails while the upload of `f2.pdf` succeeds. -/
def attProcEnv : ProcEnv :=
  ⟨fun raw => .ok ⟨raw.id.getD "", none⟩, fun _ => false,
    fun _ _ => .ok (some "DATA"),
    fun fn _ _ => if fn == "f1.pdf" then .error ()
      else .ok (some ⟨some "drv2", some "url2"⟩)⟩

def part1 : MimePart := ⟨some "f1.pdf", some "application/pdf", some "a1", none, []⟩

def part2 : MimePart := ⟨some "f2.pdf", some "application/pdf", some "a2", none, []⟩

def rawTwoParts : RawEmail := ⟨some "m", some ⟨[part1, part2]⟩⟩

/-- One listed id whose fetch gets a 404 from the remote, with an otherwise
well-behaved environment. -/
def gone404Env : SyncEnv :=
  ⟨.record (some "tok"), .ok ([some "m1"], some "H2"),
    fun _ => .errCode 404, plainProc⟩

/-- A two-page fallback remote: the first page yields one stub and a next
token, the second yields one stub and no token. -/
def twoPageEnv : Option String → Except Unit PageRes :=
  fun tok => if tok == some "t2" then .ok ⟨[some "b"], none⟩
    else .ok ⟨[some "a"], some "t2"⟩

/-- A small part tree for the C8 witness: a container part with an inlined
image (no `attachmentId`), a nested real attachment, and a sibling malformed
part (filename and reference but no MIME type). -/
def demoTree : List MimePart :=
  [MimePart.mk none (some "multipart/mixed") none none
      [MimePart.mk (some "inline.png") (some "image/png") none
          (some "AAAA") [],
        MimePart.mk (some "doc.pdf") (some "application/pdf")
          (some "att1") none []],
    MimePart.mk (some "bad.bin") none (some "att2") none []]

def malformedPart : MimePart :=
  MimePart.mk (some "bad.bin") none (some "att2") none []

/-- A processing environment whose `prisma.email.create` always fails with a
non-P2002 database error. -/
def faultProc : ProcEnv :=
  ⟨fun raw => .ok ⟨raw.id.getD "", none⟩, fun _ => true,
    fun _ _ => .errCode 500, fun _ _ _ => .error ()⟩

def faultSyncEnv : SyncEnv :=
  ⟨.record (some "tok"), .ok ([some "m1"], some "H3"),
    fun id => .ok (simpleRaw id), faultProc⟩

/-- An identity cipher: a concrete primitive satisfying the inverse
contract. -/
def idCipher : CipherSpec := ⟨fun _ _ t => t, fun _ _ t => some t⟩

/-- A process environment with a valid 64-hex-char key and 32-hex-char iv. -/
def demoEnvVars : EnvVars :=
  ⟨some "0123456789abcdef0123456789abcdef0123456789abcdef0123456789abcdef",
    some "0123456789abcdef0123456789abcdef", fun _ => none⟩

/-- The same key and iv with an otherwise different process environment. -/
def demoEnvVars2 : EnvVars :=
  ⟨some "0123456789abcdef0123456789abcdef0123456789abcdef0123456789abcdef",
    some "0123456789abcdef0123456789abcdef",
    fun v => if v == "HOME" then some "/root" else none⟩

theorem truthy_eq_true_iff (o : Option String) :
    truthy o = true ↔ ∃ s, o = some s ∧ s ≠ "" := by
  cases o with
  | none => simp [truthy]
  | some s => simp [truthy]

theorem runEmailSync_cursor_cases (c0 : Option String)
    (store0 : List StoredEmail) (env : SyncEnv) :
    (runEmailSync c0 store0 env).cursor = c0 ∨
      ∃ (msgs : List (Option String)) (h : String),
        env.listResult = .ok (msgs, some h) ∧
        (runEmailSync c0 store0 env).cursor = some h := by
  obtain ⟨tf, lr, rg, pr⟩ := env
  cases tf with
  | dbError => exact Or.inl rfl
  | noRecord => exact Or.inl rfl
  | record refresh =>
    cases hrt : truthy refresh with
    | false => left; simp [runEmailSync, hrt]
    | true =>
      cases lr with
      | error e => left; simp [runEmailSync, hrt]
      | ok p =>
        obtain ⟨headers, newHid⟩ := p
        cases headers with
        | nil =>
          by_cases hc : (truthy newHid && (newHid != c0)) = true
          · obtain ⟨s, hs, hne⟩ :=
              (truthy_eq_true_iff newHid).mp (Bool.and_elim_left hc)
            subst hs
            have h1 : truthy (some s) = true := Bool.and_elim_left hc
            have h2 : some s ≠ c0 := by simpa using Bool.and_elim_right hc
            right
            exact ⟨[], s, rfl, by simp [runEmailSync, hrt, h1, h2]⟩
          · left
            simp [runEmailSync, hrt, hc]
        | cons h0 hs =>
          by_cases hn : truthy newHid = true
          · obtain ⟨s, hseq, hne⟩ := (truthy_eq_true_iff newHid).mp hn
            subst hseq
            right
            exact ⟨h0 :: hs, s, rfl, by simp [runEmailSync, hrt, hn]⟩
          · left
            simp [runEmailSync, hrt, hn]

theorem runEmailSync_listError (c0 : Option String)
    (store0 : List StoredEmail) (env : SyncEnv)
    (hl : env.listResult = .error ()) :
    (runEmailSync c0 store0 env).cursor = c0 := by
  obtain ⟨tf, lr, rg, pr⟩ := env
  cases tf with
  | dbError => rfl
  | noRecord => rfl
  | record refresh =>
    simp only [SyncEnv.listResult] at hl
    subst hl
    cases hrt : truthy refresh with
    | false => simp [runEmailSync, hrt]
    | true => simp [runEmailSync, hrt]

theorem cursorEvolution_holds (envs : List SyncEnv) :
    ∀ (c0 : Option String) (store0 : List StoredEmail),
      CursorEvolution c0 store0 envs := by
  induction envs with
  | nil => intro c0 store0; trivial
  | cons env rest ih =>
    intro c0 store0
    refine ⟨?_, ih _ _⟩
    rcases runEmailSync_cursor_cases c0 store0 env with hc | ⟨msgs, s, hl, hc⟩
    · exact Or.inl hc
    · exact Or.inr ⟨msgs, s, hl, hc⟩

/-- Claim C1: across any sequence of synchronization cycles, each cycle of
the run leaves the persisted cursor unchanged or replaces it with the
`newCursor` value returned by that same cycle's successful listing call —
so it is never rewound to any value a listing did not return — and a cycle
whose listing call raised an error leaves the stored cursor exactly as it
was. -/
theorem claim1_cursor_monotonic :
    (∀ (c0 : Option String) (store0 : List StoredEmail) (envs : List SyncEnv),
      CursorEvolution c0 store0 envs) ∧
    (∀ (c0 : Option String) (store0 : List StoredEmail) (env : SyncEnv),
      env.listResult = .error () → (runEmailSync c0 store0 env).cursor = c0) :=
  ⟨fun c0 store0 envs => cursorEvolution_holds envs c0 store0,
   fun c0 store0 env hl => runEmailSync_listError c0 store0 env hl⟩

/-- Witness for claim C1 at a concrete input: a cycle whose listing call
raises leaves the stored cursor `"H5"` exactly as it was. -/
theorem claim1_cursor_monotonic_witness :
    (runEmailSync (some "H5") []
        ⟨.record (some "tok"), .error (), fun _ => .errCode 500,
          plainProc⟩).cursor = some "H5" :=
  claim1_cursor_monotonic.2 (some "H5") []
    ⟨.record (some "tok"), .error (), fun _ => .errCode 500, plainProc⟩ rfl

/-- Counterexample to claim C2 as stated: the listing returns the non-null
`newCursor` `""` (a non-null string the remote interface's type admits) and
a non-empty id list, the whole batch is attempted (both items fail), yet the
orchestrator does not persist that `newCursor`: `if (newHistoryId)` is
JavaScript-falsy for the empty string, so the stored cursor stays `"H100"`. -/
theorem claim2_counterexample :
    (fetchFailEnv [some "m1", some "m2"] (some "")).listResult
        = .ok ([some "m1", some "m2"], some "") ∧
    (runEmailSync (some "H100") [] (fetchFailEnv [some "m1", some "m2"] (some ""))).failed = 2 ∧
    (runEmailSync (some "H100") [] (fetchFailEnv [some "m1", some "m2"] (some ""))).cursor ≠ some "" := by
  refine ⟨rfl, by decide, by decide⟩

/-- Claim C2 (amended: the returned `newCursor` must further be non-empty —
JavaScript truthiness — otherwise it is treated like `null` and not
persisted): when a cycle that reached its listing call gets back a non-empty
id list and a truthy `newCursor`, that `newCursor` is persisted after the
batch has been attempted, unconditionally — whatever the per-item outcomes,
including every single item failing. -/
theorem claim2_cursor_persisted_after_batch (c0 : Option String)
    (store0 : List StoredEmail) (env : SyncEnv) (refresh : Option String)
    (msgs : List (Option String)) (h : String)
    (htok : env.tokenFetch = .record refresh) (hr : truthy refresh = true)
    (hl : env.listResult = .ok (msgs, some h)) (hne : h ≠ "")
    (hm : msgs ≠ []) :
    (runEmailSync c0 store0 env).cursor = some h := by
  obtain ⟨tf, lr, rg, pr⟩ := env
  simp only [SyncEnv.tokenFetch] at htok
  simp only [SyncEnv.listResult] at hl
  subst htok
  subst hl
  cases msgs with
  | nil => exact absurd rfl hm
  | cons a rest =>
    have ht : truthy (some h) = true := by simp [truthy, hne]
    simp [runEmailSync, hr, ht]

/-- Witness for the amended claim C2 at a concrete input: two listed ids,
both fetches raise, and the batch's cursor `"H101"` is still persisted. -/
theorem claim2_cursor_persisted_after_batch_witness :
    (runEmailSync (some "H100") []
        (fetchFailEnv [some "m1", some "m2"] (some "H101"))).cursor
      = some "H101" ∧
    (runEmailSync (some "H100") []
        (fetchFailEnv [some "m1", some "m2"] (some "H101"))).failed = 2 :=
  ⟨claim2_cursor_persisted_after_batch (some "H100") []
      (fetchFailEnv [some "m1", some "m2"] (some "H101")) (some "tok")
      [some "m1", some "m2"] "H101" rfl (by decide) rfl (by decide)
      (by decide),
    by decide⟩

theorem collides_noMsgId (e : StoredEmail) (g : String) :
    collides e ⟨g, none⟩ = (e.gmailId == g) := by
  cases e with
  | mk i gid mid => cases mid <;> simp [collides]

theorem hasDup_eq_false_of_fresh (store : List StoredEmail) (g : String)
    (hf : ∀ e ∈ store, e.gmailId ≠ g) : hasDup store ⟨g, none⟩ = false := by
  simp only [hasDup, List.any_eq_false]
  intro e he
  rw [collides_noMsgId]
  simpa using hf e he

/-- The per-message loop, classified: ids whose fetch step fails (as
`bad` says) are counted failed; the rest are fetched, parsed, stored (in
order) and counted succeeded; no attachment record is written for payloads
without parts. -/
theorem processBatch_classified (env : SyncEnv) (bad : String → Bool) :
    ∀ (ids : List String) (store : List StoredEmail),
      (∀ id ∈ ids, id ≠ "") →
      ids.Nodup →
      (∀ id ∈ ids, ∀ e ∈ store, e.gmailId ≠ id) →
      (∀ id ∈ ids, if bad id then BadFetch env id else GoodId env id) →
      (processBatch env (ids.map some) store).succeeded
          = (ids.filter (fun i => !(bad i))).length ∧
      (processBatch env (ids.map some) store).failed
          = (ids.filter bad).length ∧
      (processBatch env (ids.map some) store).store.map (·.gmailId)
          = store.map (·.gmailId) ++ ids.filter (fun i => !(bad i)) ∧
      (processBatch env (ids.map some) store).atts = [] := by
  intro ids
  induction ids with
  | nil => intro store _ _ _ _; exact ⟨rfl, rfl, by simp [processBatch], rfl⟩
  | cons id rest ih =>
    intro store hvalid hnodup hfresh hclass
    have hid : id ≠ "" := hvalid id (by simp)
    have hidb : (id == "") = false := by simpa using hid
    have hrest_valid : ∀ i ∈ rest, i ≠ "" := fun i hi => hvalid i (by simp [hi])
    have hrest_nodup : rest.Nodup := (List.nodup_cons.mp hnodup).2
    have hnotmem : id ∉ rest := (List.nodup_cons.mp hnodup).1
    have hrest_class : ∀ i ∈ rest, if bad i then BadFetch env i else GoodId env i :=
      fun i hi => hclass i (by simp [hi])
    cases hb : bad id with
    | true =>
      have hbf : BadFetch env id := by
        have := hclass id (by simp)
        rwa [hb, if_pos rfl] at this
      have hrest_fresh : ∀ i ∈ rest, ∀ e ∈ store, e.gmailId ≠ i :=
        fun i hi e he => hfresh i (by simp [hi]) e he
      obtain ⟨h1, h2, h3, h4⟩ := ih store hrest_valid hrest_nodup hrest_fresh hrest_class
      have hstep : processBatch env ((id :: rest).map some) store =
          ⟨(processBatch env (rest.map some) store).succeeded,
           (processBatch env (rest.map some) store).failed + 1,
           (processBatch env (rest.map some) store).store,
           (processBatch env (rest.map some) store).atts⟩ := by
        rcases hbf with hf | hf <;>
          simp [processBatch, hidb, hf]
      rw [hstep]
      refine ⟨?_, ?_, ?_, ?_⟩
      · simpa [List.filter, hb] using h1
      · simpa [List.filter, hb] using h2
      · simpa [List.filter, hb] using h3
      · simpa using h4
    | false =>
      have hgood : GoodId env id := by
        have := hclass id (by simp)
        rwa [hb] at this
      obtain ⟨hget, hparse, hfault⟩ := hgood
      have hfetch : getEmailContent env.remoteGet id = .ok (some (simpleRaw id)) := by
        simp [getEmailContent, hidb, hget]
      have hdup : hasDup store ⟨id, none⟩ = false :=
        hasDup_eq_false_of_fresh store id (fun e he => hfresh id (by simp) e he)
      have hsave : saveEmail (env.proc.dbFault ⟨id, none⟩) store ⟨id, none⟩
          = (some ⟨store.length + 1, id, none⟩, store ++ [⟨store.length + 1, id, none⟩]) := by
        rw [hfault]
        simp [saveEmail, hdup]
      have hparse' : env.proc.parse ⟨some id, some ⟨[]⟩⟩ = Except.ok ⟨id, none⟩ :=
        hparse
      have hproc : processAndSaveEmail env.proc store (simpleRaw id)
          = (⟨true, ⟨[], [], []⟩⟩, store ++ [⟨store.length + 1, id, none⟩]) := by
        simp [processAndSaveEmail, simpleRaw, hidb, hparse', hsave,
          findAttachments, processParts]
      have hrest_fresh : ∀ i ∈ rest, ∀ e ∈ store ++ [⟨store.length + 1, id, none⟩],
          e.gmailId ≠ i := by
        intro i hi e he
        rcases List.mem_append.mp he with he | he
        · exact hfresh i (by simp [hi]) e he
        · have : e = ⟨store.length + 1, id, none⟩ := by simpa using he
          subst this
          intro hcontra
          simp only at hcontra
          exact hnotmem (hcontra ▸ hi)
      obtain ⟨h1, h2, h3, h4⟩ := ih (store ++ [⟨store.length + 1, id, none⟩])
        hrest_valid hrest_nodup hrest_fresh hrest_class
      have hstep : processBatch env ((id :: rest).map some) store =
          ⟨(processBatch env (rest.map some) (store ++ [⟨store.length + 1, id, none⟩])).succeeded + 1,
           (processBatch env (rest.map some) (store ++ [⟨store.length + 1, id, none⟩])).failed,
           (processBatch env (rest.map some) (store ++ [⟨store.length + 1, id, none⟩])).store,
           (processBatch env (rest.map some) (store ++ [⟨store.length + 1, id, none⟩])).atts⟩ := by
        simp [processBatch, hidb, hfetch, hproc]
      rw [hstep]
      refine ⟨?_, ?_, ?_, ?_⟩
      · simpa [List.filter, hb] using h1
      · simpa [List.filter, hb] using h2
      · rw [h3]
        simp [List.filter, hb]
      · simpa using h4

/-- Counterexample to claim C3 as stated: a batch of two ids where only the
fetch of `"b"` raises; the other item is processed and stored and the
failure is counted, but the batch's `newCursor` — here the non-null string
`""` — is not persisted, because `if (newHistoryId)` is JavaScript-falsy for
the empty string: the stored cursor remains `"H1"`. -/
theorem claim3_counterexample :
    (runEmailSync (some "H1") [] oneFailEnv).succeeded = 1 ∧
    (runEmailSync (some "H1") [] oneFailEnv).failed = 1 ∧
    (runEmailSync (some "H1") [] oneFailEnv).emails.map (·.gmailId) = ["a"] ∧
    (runEmailSync (some "H1") [] oneFailEnv).cursor ≠ some "" := by
  exact ⟨by decide, by decide, by decide, by decide⟩

/-- Claim C3 (amended: the cursor clause requires the batch's `newCursor` to
be truthy — non-empty — as in C2): per-item fault isolation. In a batch of
listed ids in which fetching exactly one id `k` raises an exception and no
other failure occurs, the exception is caught at the per-item boundary,
every other item is processed and stored, the failure is counted as the one
failed item, and the batch's `newCursor` is still persisted. -/
theorem claim3_fault_isolation (env : SyncEnv) (refresh : Option String)
    (ids : List String) (k : String) (h : String) (c0 : Option String)
    (store0 : List StoredEmail) (c : Nat)
    (htok : env.tokenFetch = .record refresh) (hr : truthy refresh = true)
    (hl : env.listResult = .ok (ids.map some, some h)) (hh : h ≠ "")
    (hvalid : ∀ id ∈ ids, id ≠ "") (hnodup : ids.Nodup) (hk : k ∈ ids)
    (hfresh : ∀ id ∈ ids, ∀ e ∈ store0, e.gmailId ≠ id)
    (hkfetch : env.remoteGet k = .errCode c) (hc404 : c ≠ 404)
    (hgood : ∀ id ∈ ids, id ≠ k → GoodId env id) :
    (runEmailSync c0 store0 env).succeeded = ids.length - 1 ∧
    (runEmailSync c0 store0 env).failed = 1 ∧
    (runEmailSync c0 store0 env).emails.map (·.gmailId)
        = store0.map (·.gmailId) ++ ids.filter (fun i => !(i == k)) ∧
    (runEmailSync c0 store0 env).cursor = some h := by
  have hclass : ∀ id ∈ ids,
      if (id == k) then BadFetch env id else GoodId env id := by
    intro id hid
    by_cases he : id = k
    · subst he
      have hne : (id == "") = false := by simpa using hvalid id hid
      have h404 : (c == 404) = false := by simpa using hc404
      simp only [beq_self_eq_true, if_true]
      left
      simp [getEmailContent, BadFetch, hne, hkfetch, h404]
    · have hbe : (id == k) = false := by simpa using he
      rw [hbe]
      simp only [Bool.false_eq_true, if_false]
      exact hgood id hid he
  obtain ⟨hsucc, hfail, hstore, -⟩ :=
    processBatch_classified env (fun i => i == k) ids store0
      hvalid hnodup hfresh hclass
  have hfail_len : (ids.filter (fun i => i == k)).length = 1 := by
    rw [← List.countP_eq_length_filter]
    exact List.count_eq_one_of_mem hnodup hk
  have hsum := List.length_eq_length_filter_add (l := ids) (fun i => i == k)
  cases ids with
  | nil => simp at hk
  | cons i rest =>
    have ht : truthy (some h) = true := by simp [truthy, hh]
    have hred : runEmailSync c0 store0 env =
        ⟨some h, (processBatch env ((i :: rest).map some) store0).store,
          (processBatch env ((i :: rest).map some) store0).succeeded,
          (processBatch env ((i :: rest).map some) store0).failed,
          (processBatch env ((i :: rest).map some) store0).atts⟩ := by
      unfold runEmailSync
      rw [htok, hl]
      simp [hr, ht]
    rw [hred]
    refine ⟨?_, ?_, ?_, rfl⟩
    · show (processBatch env ((i :: rest).map some) store0).succeeded
        = (i :: rest).length - 1
      rw [hsucc]
      omega
    · exact hfail ▸ hfail_len
    · exact hstore

/-- Witness for the amended claim C3 at a concrete input: ids `m1`,`m2`,`m3`
with the fetch of `m2` raising a 500; two items are stored, one failure is
counted, and the cursor `"H7"` is persisted. -/
theorem claim3_fault_isolation_witness :
    (runEmailSync (some "H6") []
        ⟨.record (some "tok"), .ok ([some "m1", some "m2", some "m3"], some "H7"),
          fun id => if id == "m2" then .errCode 500 else .ok (simpleRaw id),
          plainProc⟩).succeeded = 2 ∧
    (runEmailSync (some "H6") []
        ⟨.record (some "tok"), .ok ([some "m1", some "m2", some "m3"], some "H7"),
          fun id => if id == "m2" then .errCode 500 else .ok (simpleRaw id),
          plainProc⟩).failed = 1 ∧
    (runEmailSync (some "H6") []
        ⟨.record (some "tok"), .ok ([some "m1", some "m2", some "m3"], some "H7"),
          fun id => if id == "m2" then .errCode 500 else .ok (simpleRaw id),
          plainProc⟩).emails.map (·.gmailId) = ["m1", "m3"] ∧
    (runEmailSync (some "H6") []
        ⟨.record (some "tok"), .ok ([some "m1", some "m2", some "m3"], some "H7"),
          fun id => if id == "m2" then .errCode 500 else .ok (simpleRaw id),
          plainProc⟩).cursor = some "H7" := by
  obtain ⟨h1, h2, h3, h4⟩ := claim3_fault_isolation
    ⟨.record (some "tok"), .ok ([some "m1", some "m2", some "m3"], some "H7"),
      fun id => if id == "m2" then .errCode 500 else .ok (simpleRaw id),
      plainProc⟩
    (some "tok") ["m1", "m2", "m3"] "m2" "H7" (some "H6") [] 500
    rfl (by decide) rfl (by decide) (by decide) (by decide) (by decide)
    (by intro id hid e he; simp at he) (by simp) (by decide)
    (by
      intro id hid hne
      refine ⟨?_, rfl, rfl⟩
      have : (id == "m2") = false := by simpa using hne
      simp [this])
  exact ⟨by simpa using h1, h2, by simpa using h3, h4⟩

theorem processAndSaveEmail_eq (env : ProcEnv) (store : List StoredEmail)
    (raw : RawEmail) (rid : String) (parsed : ParsedEmail)
    (hid : raw.id = some rid) (hne : rid ≠ "")
    (hparse : env.parse raw = .ok parsed) :
    processAndSaveEmail env store raw =
      match saveEmail (env.dbFault parsed) store parsed with
      | (none, st') => (ProcOutcome.noWork, st')
      | (some saved, st') =>
        match raw.payload with
        | none => (⟨true, ⟨[], [], []⟩⟩, st')
        | some payload =>
          (⟨true, processParts env rid saved.id
            (findAttachments payload.parts)⟩, st') := by
  unfold processAndSaveEmail
  rw [hid]
  have hne' : (rid == "") = false := by simpa using hne
  simp [hne', hparse]

theorem processAndSaveEmail_store (env : ProcEnv) (store : List StoredEmail)
    (raw : RawEmail) (rid : String) (parsed : ParsedEmail)
    (hid : raw.id = some rid) (hne : rid ≠ "")
    (hparse : env.parse raw = .ok parsed) :
    (processAndSaveEmail env store raw).2
      = (saveEmail (env.dbFault parsed) store parsed).2 := by
  rw [processAndSaveEmail_eq env store raw rid parsed hid hne hparse]
  rcases hs : saveEmail (env.dbFault parsed) store parsed with ⟨o, st⟩
  cases o with
  | none => rfl
  | some saved => cases raw.payload <;> rfl

theorem saveEmail_dup (store : List StoredEmail) (d : ParsedEmail)
    (hd : hasDup store d = true) : saveEmail false store d = (none, store) := by
  simp [saveEmail, hd]

theorem hasDup_after_save (store : List StoredEmail) (d : ParsedEmail) :
    hasDup (saveEmail false store d).2 d = true := by
  by_cases hd : hasDup store d = true
  · simpa [saveEmail, hd] using hd
  · have hd' : hasDup store d = false := by simpa using hd
    have hs : saveEmail false store d =
        (some ⟨store.length + 1, d.gmailId, d.messageId⟩,
          store ++ [⟨store.length + 1, d.gmailId, d.messageId⟩]) := by
      simp [saveEmail, hd']
    rw [hs]
    simp [hasDup, collides]

/-- Claim C4: idempotent ingestion — processing the same raw email twice
(hence the same `gmailId`/`messageId` through the deterministic parse) never
yields two stored rows: the second save hits the unique constraint and
returns the already-exists outcome `null` without raising, the second call
performs zero attachment work (no download, no upload, no record), and the
store stays exactly as after the first call, holding at most one row with
that `gmailId`. -/
theorem claim4_idempotent_ingestion (env : ProcEnv)
    (store0 : List StoredEmail) (raw : RawEmail) (rid : String)
    (parsed : ParsedEmail) (hid : raw.id = some rid) (hne : rid ≠ "")
    (hparse : env.parse raw = .ok parsed)
    (hfault : env.dbFault parsed = false) :
    saveEmail false ((processAndSaveEmail env store0 raw).2) parsed
        = (none, (processAndSaveEmail env store0 raw).2) ∧
    processAndSaveEmail env ((processAndSaveEmail env store0 raw).2) raw
        = (ProcOutcome.noWork, (processAndSaveEmail env store0 raw).2) ∧
    (store0.countP (fun e => e.gmailId == parsed.gmailId) = 0 →
      ((processAndSaveEmail env ((processAndSaveEmail env store0 raw).2)
          raw).2.countP (fun e => e.gmailId == parsed.gmailId)) ≤ 1) := by
  have hstore1 := processAndSaveEmail_store env store0 raw rid parsed hid hne hparse
  rw [hfault] at hstore1
  have hdup1 : hasDup ((processAndSaveEmail env store0 raw).2) parsed = true := by
    rw [hstore1]
    exact hasDup_after_save store0 parsed
  have hsave2 : saveEmail false ((processAndSaveEmail env store0 raw).2) parsed
      = (none, (processAndSaveEmail env store0 raw).2) :=
    saveEmail_dup _ parsed hdup1
  have hsecond : processAndSaveEmail env
      ((processAndSaveEmail env store0 raw).2) raw
      = (ProcOutcome.noWork, (processAndSaveEmail env store0 raw).2) := by
    rw [processAndSaveEmail_eq env _ raw rid parsed hid hne hparse, hfault,
      hsave2]
  refine ⟨hsave2, hsecond, ?_⟩
  intro hcnt
  rw [hsecond]
  show ((processAndSaveEmail env store0 raw).2.countP
    (fun e => e.gmailId == parsed.gmailId)) ≤ 1
  rw [hstore1]
  by_cases hd : hasDup store0 parsed = true
  · simp [saveEmail, hd, hcnt]
  · have hd' : hasDup store0 parsed = false := by simpa using hd
    simp [saveEmail, hd', List.countP_append, List.countP_cons, hcnt]

/-- Witness for claim C4 at a concrete input: the email with Gmail id `g1`
is processed twice against an empty store; the second save returns `null`,
the second call is a no-op, and one row ends up stored. -/
theorem claim4_idempotent_ingestion_witness :
    saveEmail false ((processAndSaveEmail plainProc [] (simpleRaw "g1")).2)
        ⟨"g1", none⟩
      = (none, (processAndSaveEmail plainProc [] (simpleRaw "g1")).2) ∧
    processAndSaveEmail plainProc
        ((processAndSaveEmail plainProc [] (simpleRaw "g1")).2)
        (simpleRaw "g1")
      = (ProcOutcome.noWork,
          (processAndSaveEmail plainProc [] (simpleRaw "g1")).2) ∧
    ((processAndSaveEmail plainProc
        ((processAndSaveEmail plainProc [] (simpleRaw "g1")).2)
        (simpleRaw "g1")).2.countP (fun e => e.gmailId == "g1")) ≤ 1 := by
  obtain ⟨h1, h2, h3⟩ := claim4_idempotent_ingestion plainProc []
    (simpleRaw "g1") "g1" ⟨"g1", none⟩ rfl (by decide) rfl rfl
  exact ⟨h1, h2, by simpa using h3 (by decide)⟩

theorem processPart_records (env : ProcEnv) (rid : String) (eid : Nat)
    (p : MimePart) :
    (processPart env rid eid p).records = (partRecord env rid eid p).toList := by
  unfold processPart partRecord
  by_cases hg : (truthy p.attachmentId && truthy p.filename
      && truthy p.mimeType) = true
  · simp only [hg, Bool.not_true, Bool.false_eq_true, if_false]
    rcases hdl : downloadAttachment env.attRemote rid (p.attachmentId.getD "")
      with e | od
    · simp [hdl]
    · rcases od with _ | data
      · simp [hdl]
      · rcases hup : uploadToDrive env.driveResp (p.filename.getD "")
          (p.mimeType.getD "") data with e | f
        · simp [hdl, hup]
        · by_cases hf : (truthy f.id && truthy f.webViewLink) = true
          · simp [hdl, hup, hf]
          · have hf0 : (truthy f.id && truthy f.webViewLink) = false := by
              simpa using hf
            simp [hdl, hup, hf0]
  · have hg0 : (truthy p.attachmentId && truthy p.filename
        && truthy p.mimeType) = false := by simpa using hg
    simp [hg0]

theorem processParts_records (env : ProcEnv) (rid : String) (eid : Nat) :
    ∀ parts : List MimePart,
      (processParts env rid eid parts).records
        = parts.filterMap (partRecord env rid eid) := by
  intro parts
  induction parts with
  | nil => simp [processParts]
  | cons p rest ih =>
    simp only [processParts, List.filterMap_cons, processPart_records, ih]
    cases hpr : partRecord env rid eid p <;> simp

theorem partRecord_isSome_iff (env : ProcEnv) (rid : String) (eid : Nat)
    (p : MimePart) :
    (partRecord env rid eid p).isSome = true ↔
      ((truthy p.attachmentId && truthy p.filename
          && truthy p.mimeType) = true ∧
        ∃ data, downloadAttachment env.attRemote rid (p.attachmentId.getD "")
            = .ok (some data) ∧
          ∃ f, uploadToDrive env.driveResp (p.filename.getD "")
              (p.mimeType.getD "") data = .ok f ∧
            truthy f.id = true ∧ truthy f.webViewLink = true) := by
  unfold partRecord
  by_cases hg : (truthy p.attachmentId && truthy p.filename
      && truthy p.mimeType) = true
  · simp only [hg, Bool.not_true, Bool.false_eq_true, if_false, true_and]
    rcases hdl : downloadAttachment env.attRemote rid (p.attachmentId.getD "")
      with e | od
    · simp [hdl]
    · rcases od with _ | data
      · simp [hdl]
      · rcases hup : uploadToDrive env.driveResp (p.filename.getD "")
          (p.mimeType.getD "") data with e | f
        · simp [hdl, hup]
        · by_cases hf : (truthy f.id && truthy f.webViewLink) = true
          · obtain ⟨h1, h2⟩ := (Bool.and_eq_true _ _).mp hf
            simp [hdl, hup, hf, h1, h2]
          · have hf0 : (truthy f.id && truthy f.webViewLink) = false := by
              simpa using hf
            rcases (Bool.and_eq_false_eq_eq_false_or_eq_false _ _) ▸ hf0
              with h | h <;> simp [hdl, hup, hf0, h]
  · have hg0 : (truthy p.attachmentId && truthy p.filename
        && truthy p.mimeType) = false := by simpa using hg
    simp [hg0]

theorem processAndSaveEmail_fresh_save (env : ProcEnv)
    (store : List StoredEmail) (raw : RawEmail) (rid : String)
    (parsed : ParsedEmail) (hid : raw.id = some rid) (hne : rid ≠ "")
    (hparse : env.parse raw = .ok parsed)
    (hfault : env.dbFault parsed = false)
    (hfresh : hasDup store parsed = false) :
    (processAndSaveEmail env store raw).2
        = store ++ [⟨store.length + 1, parsed.gmailId, parsed.messageId⟩] ∧
    (processAndSaveEmail env store raw).1.emailSaved = true := by
  rw [processAndSaveEmail_eq env store raw rid parsed hid hne hparse, hfault]
  have hs : saveEmail false store parsed =
      (some ⟨store.length + 1, parsed.gmailId, parsed.messageId⟩,
        store ++ [⟨store.length + 1, parsed.gmailId, parsed.messageId⟩]) := by
    simp [saveEmail, hfresh]
  rw [hs]
  cases raw.payload <;> exact ⟨rfl, rfl⟩

/-- Claim C5: attachment atomicity. The records written by the attachment
loop are exactly the per-part closed-form outcomes (`partRecord`), so a
failing part contributes nothing while every remaining part is still
processed; a part's record exists precisely when the part is well-formed,
its download returned data, and its upload returned a file with both an id
and a retrievable link; and the owning stored email row — and the store —
are the same whatever the attachment pipeline's remote services do. -/
theorem claim5_attachment_atomicity :
    (∀ (env : ProcEnv) (rid : String) (eid : Nat) (parts : List MimePart),
      (processParts env rid eid parts).records
        = parts.filterMap (partRecord env rid eid)) ∧
    (∀ (env : ProcEnv) (rid : String) (eid : Nat) (p : MimePart),
      (partRecord env rid eid p).isSome = true ↔
        ((truthy p.attachmentId && truthy p.filename
            && truthy p.mimeType) = true ∧
          ∃ data, downloadAttachment env.attRemote rid
              (p.attachmentId.getD "") = .ok (some data) ∧
            ∃ f, uploadToDrive env.driveResp (p.filename.getD "")
                (p.mimeType.getD "") data = .ok f ∧
              truthy f.id = true ∧ truthy f.webViewLink = true)) ∧
    (∀ (env : ProcEnv) (store : List StoredEmail) (raw : RawEmail)
        (rid : String) (parsed : ParsedEmail),
      raw.id = some rid → rid ≠ "" → env.parse raw = .ok parsed →
      env.dbFault parsed = false → hasDup store parsed = false →
      (processAndSaveEmail env store raw).2
          = store ++ [⟨store.length + 1, parsed.gmailId, parsed.messageId⟩] ∧
      (processAndSaveEmail env store raw).1.emailSaved = true) :=
  ⟨processParts_records, partRecord_isSome_iff,
    fun env store raw rid parsed hid hne hparse hfault hfresh =>
      processAndSaveEmail_fresh_save env store raw rid parsed hid hne hparse
        hfault hfresh⟩

/-- Witness for claim C5 at a concrete input: the first part's upload fails
after a successful download (no record), the second part still transfers
(one record), and the owning email row is stored and intact. -/
theorem claim5_attachment_atomicity_witness :
    (processParts attProcEnv "m" 7 [part1, part2]).records
        = [⟨7, "f2.pdf", "application/pdf", "drv2", "url2"⟩] ∧
    (processAndSaveEmail attProcEnv [] rawTwoParts).2
        = [⟨1, "m", none⟩] ∧
    (processAndSaveEmail attProcEnv [] rawTwoParts).1.emailSaved = true := by
  obtain ⟨h1, h2, h3⟩ := claim5_attachment_atomicity
  obtain ⟨hstore, hsaved⟩ := h3 attProcEnv [] rawTwoParts "m" ⟨"m", none⟩
    rfl (by decide) rfl rfl (by decide)
  exact ⟨(h1 attProcEnv "m" 7 [part1, part2]).trans (by decide),
    by simpa using hstore, hsaved⟩

/-- Generic one-bad-id batch fact: with a valid token and a truthy listed
`newCursor`, if exactly one listed id's fetch step yields no message (raises
or resolves `null`) and every other id is well-behaved, then all other items
are stored, one failure is counted, and the cursor is persisted. -/
theorem runEmailSync_one_bad (env : SyncEnv) (refresh : Option String)
    (ids : List String) (k : String) (h : String) (c0 : Option String)
    (store0 : List StoredEmail)
    (htok : env.tokenFetch = .record refresh) (hr : truthy refresh = true)
    (hl : env.listResult = .ok (ids.map some, some h)) (hh : h ≠ "")
    (hvalid : ∀ id ∈ ids, id ≠ "") (hnodup : ids.Nodup) (hk : k ∈ ids)
    (hfresh : ∀ id ∈ ids, ∀ e ∈ store0, e.gmailId ≠ id)
    (hbadk : BadFetch env k)
    (hgood : ∀ id ∈ ids, id ≠ k → GoodId env id) :
    (runEmailSync c0 store0 env).succeeded = ids.length - 1 ∧
    (runEmailSync c0 store0 env).failed = 1 ∧
    (runEmailSync c0 store0 env).emails.map (·.gmailId)
        = store0.map (·.gmailId) ++ ids.filter (fun i => !(i == k)) ∧
    (runEmailSync c0 store0 env).cursor = some h := by
  have hclass : ∀ id ∈ ids,
      if (id == k) then BadFetch env id else GoodId env id := by
    intro id hid
    by_cases he : id = k
    · subst he
      simpa only [beq_self_eq_true, if_true] using hbadk
    · have hbe : (id == k) = false := by simpa using he
      rw [hbe]
      simp only [Bool.false_eq_true, if_false]
      exact hgood id hid he
  obtain ⟨hsucc, hfail, hstore, -⟩ :=
    processBatch_classified env (fun i => i == k) ids store0
      hvalid hnodup hfresh hclass
  have hfail_len : (ids.filter (fun i => i == k)).length = 1 := by
    rw [← List.countP_eq_length_filter]
    exact List.count_eq_one_of_mem hnodup hk
  have hsum := List.length_eq_length_filter_add (l := ids) (fun i => i == k)
  cases ids with
  | nil => simp at hk
  | cons i rest =>
    have ht : truthy (some h) = true := by simp [truthy, hh]
    have hred : runEmailSync c0 store0 env =
        ⟨some h, (processBatch env ((i :: rest).map some) store0).store,
          (processBatch env ((i :: rest).map some) store0).succeeded,
          (processBatch env ((i :: rest).map some) store0).failed,
          (processBatch env ((i :: rest).map some) store0).atts⟩ := by
      unfold runEmailSync
      rw [htok, hl]
      simp [hr, ht]
    rw [hred]
    refine ⟨?_, ?_, ?_, rfl⟩
    · show (processBatch env ((i :: rest).map some) store0).succeeded
        = (i :: rest).length - 1
      rw [hsucc]
      omega
    · exact hfail ▸ hfail_len
    · exact hstore

/-- Counterexample to claim C6 as stated: the fetch of `m1` resolves to
`null` (404), and the orchestrator does skip it and finish the cycle —
but it logs it as an error and counts it as failed (`failedProcessingCount`
becomes 1), not as a silent skip the claim describes. -/
theorem claim6_counterexample :
    getEmailContent gone404Env.remoteGet "m1" = .ok none ∧
    (runEmailSync (some "H1") [] gone404Env).failed = 1 ∧
    (runEmailSync (some "H1") [] gone404Env).failed ≠ 0 := by
  refine ⟨rfl, by decide, by decide⟩

/-- Claim C6 (amended: the orchestrator does skip the vanished id and never
aborts the cycle for it, but it counts that id as failed rather than
skipping silently): `getEmailContent` maps a 404 to `None` and re-raises
every other remote error, and a `None` fetch makes the orchestrator skip
just that id — counting it failed — while every other id of the batch is
processed and stored and the batch's truthy cursor is persisted. -/
theorem claim6_not_found_handling :
    (∀ (remote : String → RemoteGetRes) (id : String),
      id ≠ "" → remote id = .errCode 404 →
        getEmailContent remote id = .ok none) ∧
    (∀ (remote : String → RemoteGetRes) (id : String) (c : Nat),
      id ≠ "" → remote id = .errCode c → c ≠ 404 →
        getEmailContent remote id = .error ()) ∧
    (∀ (env : SyncEnv) (refresh : Option String) (ids : List String)
        (k : String) (h : String) (c0 : Option String)
        (store0 : List StoredEmail),
      env.tokenFetch = .record refresh → truthy refresh = true →
      env.listResult = .ok (ids.map some, some h) → h ≠ "" →
      (∀ id ∈ ids, id ≠ "") → ids.Nodup → k ∈ ids →
      (∀ id ∈ ids, ∀ e ∈ store0, e.gmailId ≠ id) →
      env.remoteGet k = .errCode 404 →
      (∀ id ∈ ids, id ≠ k → GoodId env id) →
      (runEmailSync c0 store0 env).succeeded = ids.length - 1 ∧
      (runEmailSync c0 store0 env).failed = 1 ∧
      (runEmailSync c0 store0 env).emails.map (·.gmailId)
          = store0.map (·.gmailId) ++ ids.filter (fun i => !(i == k)) ∧
      (runEmailSync c0 store0 env).cursor = some h) := by
  refine ⟨?_, ?_, ?_⟩
  · intro remote id hne h404
    have hne' : (id == "") = false := by simpa using hne
    simp [getEmailContent, hne', h404]
  · intro remote id c hne hc h404
    have hne' : (id == "") = false := by simpa using hne
    have h404' : (c == 404) = false := by simpa using h404
    simp [getEmailContent, hne', hc, h404']
  · intro env refresh ids k h c0 store0 htok hr hl hh hvalid hnodup hk
      hfresh hk404 hgood
    refine runEmailSync_one_bad env refresh ids k h c0 store0 htok hr hl hh
      hvalid hnodup hk hfresh ?_ hgood
    right
    have hne' : (k == "") = false := by simpa using hvalid k hk
    simp [getEmailContent, hne', hk404]

/-- Witness for the amended claim C6 at a concrete input: with ids `m1`,`m2`
where `m1`'s fetch 404s, `getEmailContent` yields `None`, `m2` is stored,
one failure is counted, and cursor `"H9"` is persisted. -/
theorem claim6_not_found_handling_witness :
    getEmailContent (fun _ => RemoteGetRes.errCode 404) "m1" = .ok none ∧
    (runEmailSync (some "H8") []
        ⟨.record (some "tok"), .ok ([some "m1", some "m2"], some "H9"),
          fun id => if id == "m1" then .errCode 404 else .ok (simpleRaw id),
          plainProc⟩).succeeded = 1 ∧
    (runEmailSync (some "H8") []
        ⟨.record (some "tok"), .ok ([some "m1", some "m2"], some "H9"),
          fun id => if id == "m1" then .errCode 404 else .ok (simpleRaw id),
          plainProc⟩).failed = 1 ∧
    (runEmailSync (some "H8") []
        ⟨.record (some "tok"), .ok ([some "m1", some "m2"], some "H9"),
          fun id => if id == "m1" then .errCode 404 else .ok (simpleRaw id),
          plainProc⟩).cursor = some "H9" := by
  obtain ⟨h404, herr, hbatch⟩ := claim6_not_found_handling
  obtain ⟨h1, h2, h3, h4⟩ := hbatch
    ⟨.record (some "tok"), .ok ([some "m1", some "m2"], some "H9"),
      fun id => if id == "m1" then .errCode 404 else .ok (simpleRaw id),
      plainProc⟩
    (some "tok") ["m1", "m2"] "m1" "H9" (some "H8") []
    rfl (by decide) rfl (by decide) (by decide) (by decide) (by decide)
    (by intro id hid e he; simp at he) (by simp)
    (by
      intro id hid hne
      refine ⟨?_, rfl, rfl⟩
      have hb : (id == "m1") = false := by simpa using hne
      simp [hb])
  exact ⟨h404 (fun _ => RemoteGetRes.errCode 404) "m1" (by decide) rfl,
    by simpa using h1, h2, h4⟩

theorem fallbackLoop_spec (pageEnv : Option String → Except Unit PageRes)
    (pc : Nat) (tok : Option String) (acc : List (Option String))
    (out : FallbackOut) (hpc : pc < MAX_INITIAL_FETCH_PAGES)
    (hout : fallbackLoop pageEnv tok pc acc = .ok out) :
    out.pages ≤ MAX_INITIAL_FETCH_PAGES ∧ pc < out.pages ∧
      out.warned = (decide (MAX_INITIAL_FETCH_PAGES ≤ out.pages)
        && truthy out.finalToken) := by
  rw [fallbackLoop.eq_def] at hout
  cases hres : pageEnv tok with
  | error e =>
    rw [hres] at hout
    exact absurd hout (by simp)
  | ok res =>
    rw [hres] at hout
    dsimp only [] at hout
    by_cases hcond : truthy res.nextPageToken = true
        ∧ pc + 1 < MAX_INITIAL_FETCH_PAGES
    · rw [dif_pos hcond] at hout
      have ih := fallbackLoop_spec pageEnv (pc + 1) res.nextPageToken
        (acc ++ res.messages) out hcond.2 hout
      exact ⟨ih.1, Nat.lt_of_succ_lt ih.2.1, ih.2.2⟩
    · rw [dif_neg hcond] at hout
      have hmax : MAX_INITIAL_FETCH_PAGES = 5 := rfl
      have hdef : (⟨acc ++ res.messages, res.nextPageToken, pc + 1,
          decide (MAX_INITIAL_FETCH_PAGES ≤ pc + 1)
            && truthy res.nextPageToken⟩ : FallbackOut) = out := by
        simpa using hout
      rw [← hdef]
      dsimp only
      refine ⟨by rw [hmax] at hpc ⊢; omega, by omega, rfl⟩
termination_by MAX_INITIAL_FETCH_PAGES - pc
decreasing_by
  simp only [MAX_INITIAL_FETCH_PAGES] at *
  omega

theorem runEmailSync_nullCursor (c0 : Option String)
    (store0 : List StoredEmail) (env : SyncEnv)
    (msgs : List (Option String))
    (hl : env.listResult = .ok (msgs, none)) :
    (runEmailSync c0 store0 env).cursor = c0 := by
  obtain ⟨tf, lr, rg, pr⟩ := env
  simp only [SyncEnv.listResult] at hl
  subst hl
  cases tf with
  | dbError => rfl
  | noRecord => rfl
  | record refresh =>
    cases hrt : truthy refresh with
    | false => simp [runEmailSync, hrt]
    | true =>
      have hn : truthy (none : Option String) = false := rfl
      cases msgs with
      | nil => simp [runEmailSync, hrt, hn]
      | cons a rest => simp [runEmailSync, hrt, hn]

/-- Claim C7: fallback mode contract. With no (or a falsy) cursor the lister
pages through recent messages fetching at most `MAX_INITIAL_FETCH_PAGES`
(5) pages; the post-loop warning fires exactly when the cap was reached with
a further page token still present; the call returns `newCursor = None`; and
a cycle whose listing came back with `newCursor = None` leaves the stored
cursor (or its absence) untouched. -/
theorem claim7_fallback_contract :
    (∀ (pageEnv : Option String → Except Unit PageRes) (out : FallbackOut),
      fallbackLoop pageEnv none 0 [] = .ok out →
        1 ≤ out.pages ∧ out.pages ≤ MAX_INITIAL_FETCH_PAGES ∧
        (out.warned = true ↔
          (out.pages = MAX_INITIAL_FETCH_PAGES ∧ truthy out.finalToken = true))) ∧
    (∀ (histEnv : String → Except Unit HistoryData)
        (pageEnv : Option String → Except Unit PageRes)
        (startHid : Option String) (out : FallbackOut),
      truthy startHid = false →
      fallbackLoop pageEnv none 0 [] = .ok out →
        listNewEmailMessages histEnv pageEnv startHid
          = .ok (out.messages, none)) ∧
    (∀ (c0 : Option String) (store0 : List StoredEmail) (env : SyncEnv)
        (msgs : List (Option String)),
      env.listResult = .ok (msgs, none) →
        (runEmailSync c0 store0 env).cursor = c0) := by
  refine ⟨?_, ?_, ?_⟩
  · intro pageEnv out hout
    obtain ⟨h1, h2, h3⟩ := fallbackLoop_spec pageEnv 0 none [] out
      (by simp [MAX_INITIAL_FETCH_PAGES]) hout
    refine ⟨h2, h1, ?_⟩
    rw [h3]
    constructor
    · intro hw
      obtain ⟨ha, hb⟩ := (Bool.and_eq_true _ _).mp hw
      exact ⟨Nat.le_antisymm h1 (by simpa using ha), hb⟩
    · rintro ⟨hp, ht⟩
      simp [hp, ht]
  · intro histEnv pageEnv startHid out hs hout
    unfold listNewEmailMessages
    rw [hs]
    simp only [Bool.false_eq_true, if_false]
    rw [hout]
  · intro c0 store0 env msgs hl
    exact runEmailSync_nullCursor c0 store0 env msgs hl

theorem twoPageEnv_loop :
    fallbackLoop twoPageEnv none 0 [] = .ok ⟨[some "a", some "b"], none, 2, false⟩ := by
  rw [fallbackLoop.eq_def]
  simp only [twoPageEnv, MAX_INITIAL_FETCH_PAGES]
  rw [if_neg (by decide)]
  dsimp only
  rw [dif_pos (by decide)]
  rw [fallbackLoop.eq_def]
  simp only [twoPageEnv, MAX_INITIAL_FETCH_PAGES]
  rw [if_pos (by decide)]
  dsimp only
  rw [dif_neg (by decide)]
  rfl

/-- Witness for claim C7 at a concrete input: a two-page fallback run stays
under the cap with no warning, returns `newCursor = None` through the
lister, and a cycle seeing that listing leaves the cursor at `"H0"`. -/
theorem claim7_fallback_contract_witness :
    (1 ≤ (2 : Nat) ∧ (2 : Nat) ≤ MAX_INITIAL_FETCH_PAGES ∧
      (false = true ↔ ((2 : Nat) = MAX_INITIAL_FETCH_PAGES ∧ truthy none = true))) ∧
    listNewEmailMessages (fun _ => .error ()) twoPageEnv none
      = .ok ([some "a", some "b"], none) ∧
    (runEmailSync (some "H0") []
        ⟨.record (some "tok"), .ok ([some "a", some "b"], none),
          fun _ => .errCode 500, plainProc⟩).cursor = some "H0" := by
  obtain ⟨h1, h2, h3⟩ := claim7_fallback_contract
  refine ⟨?_, ?_, ?_⟩
  · simpa using h1 twoPageEnv ⟨[some "a", some "b"], none, 2, false⟩ twoPageEnv_loop
  · simpa using h2 (fun _ => .error ()) twoPageEnv none
      ⟨[some "a", some "b"], none, 2, false⟩ rfl twoPageEnv_loop
  · exact h3 (some "H0") []
      ⟨.record (some "tok"), .ok ([some "a", some "b"], none),
        fun _ => .errCode 500, plainProc⟩ [some "a", some "b"] rfl

theorem findAttachments_eq_filter (ps : List MimePart) :
    findAttachments ps = (preorder ps).filter
      (fun p => truthy p.filename && truthy p.attachmentId) := by
  match ps with
  | [] => simp [findAttachments, preorder]
  | MimePart.mk f m a d sub :: rest =>
    have ih1 := findAttachments_eq_filter sub
    have ih2 := findAttachments_eq_filter rest
    rw [findAttachments, preorder]
    rw [List.filter_cons, List.filter_append, ih1, ih2]
    cases hq : (truthy f && truthy a) with
    | true => simp [MimePart.filename, MimePart.attachmentId, hq]
    | false => simp [MimePart.filename, MimePart.attachmentId, hq]
termination_by sizeOf ps

theorem mem_findAttachments_iff (p : MimePart) (ps : List MimePart) :
    p ∈ findAttachments ps ↔
      (p ∈ preorder ps ∧ truthy p.filename = true
        ∧ truthy p.attachmentId = true) := by
  rw [findAttachments_eq_filter, List.mem_filter]
  simp [Bool.and_eq_true]

/-- Claim C8: attachment discovery. The recursive walk collects exactly the
nodes of the part tree carrying a truthy (non-empty) declared filename and a
truthy `body.attachmentId` reference — so inlined content without such a
reference never qualifies — and a collected part that lacks a MIME type is
skipped by the processing loop with zero work done for it, the loop
continuing with the remaining parts instead of failing the item. -/
theorem claim8_attachment_discovery :
    (∀ ps : List MimePart, findAttachments ps = (preorder ps).filter
      (fun p => truthy p.filename && truthy p.attachmentId)) ∧
    (∀ (p : MimePart) (ps : List MimePart),
      p ∈ findAttachments ps ↔
        (p ∈ preorder ps ∧ truthy p.filename = true
          ∧ truthy p.attachmentId = true)) ∧
    (∀ (p : MimePart) (ps : List MimePart),
      p.attachmentId = none → p ∉ findAttachments ps) ∧
    (∀ (env : ProcEnv) (rid : String) (eid : Nat) (p : MimePart),
      truthy p.mimeType = false → processPart env rid eid p = ⟨[], [], []⟩) ∧
    (∀ (env : ProcEnv) (rid : String) (eid : Nat) (p : MimePart)
        (rest : List MimePart),
      truthy p.mimeType = false →
        processParts env rid eid (p :: rest) = processParts env rid eid rest) := by
  have hskip : ∀ (env : ProcEnv) (rid : String) (eid : Nat) (p : MimePart),
      truthy p.mimeType = false → processPart env rid eid p = ⟨[], [], []⟩ := by
    intro env rid eid p hmt
    simp [processPart, hmt]
  refine ⟨findAttachments_eq_filter, mem_findAttachments_iff, ?_, hskip, ?_⟩
  · intro p ps hnone hmem
    have := (mem_findAttachments_iff p ps).mp hmem
    rw [hnone] at this
    exact absurd this.2.2 (by simp [truthy])
  · intro env rid eid p rest hmt
    rw [processParts, hskip env rid eid p hmt]
    rfl

/-- Witness for claim C8 at a concrete input: discovery collects exactly the
nested real attachment and the malformed sibling (not the inlined image and
not the container), and the loop does zero work for the malformed part. -/
theorem claim8_attachment_discovery_witness :
    (findAttachments demoTree).map MimePart.filename
        = [some "doc.pdf", some "bad.bin"] ∧
    processPart plainProc "m" 3 malformedPart = ⟨[], [], []⟩ ∧
    processParts plainProc "m" 3 [malformedPart]
        = processParts plainProc "m" 3 [] := by
  obtain ⟨h1, h2, h3, h4, h5⟩ := claim8_attachment_discovery
  refine ⟨?_, h4 plainProc "m" 3 malformedPart rfl,
    h5 plainProc "m" 3 malformedPart [] rfl⟩
  rw [h1 demoTree]
  simp [preorder, demoTree, truthy, MimePart.filename, MimePart.attachmentId]

theorem processAndSaveEmail_fault (env : ProcEnv) (store : List StoredEmail)
    (raw : RawEmail) (rid : String) (parsed : ParsedEmail)
    (hid : raw.id = some rid) (hne : rid ≠ "")
    (hparse : env.parse raw = .ok parsed)
    (hfault : env.dbFault parsed = true) :
    processAndSaveEmail env store raw = (ProcOutcome.noWork, store) := by
  rw [processAndSaveEmail_eq env store raw rid parsed hid hne hparse, hfault]
  rfl

theorem processBatch_allFault (env : SyncEnv) :
    ∀ (ids : List String) (store : List StoredEmail),
      (∀ id ∈ ids, id ≠ "" ∧ env.remoteGet id = .ok (simpleRaw id) ∧
        env.proc.parse (simpleRaw id) = .ok ⟨id, none⟩ ∧
        env.proc.dbFault ⟨id, none⟩ = true) →
      processBatch env (ids.map some) store = ⟨ids.length, 0, store, []⟩ := by
  intro ids
  induction ids with
  | nil => intro store _; rfl
  | cons id rest ih =>
    intro store hall
    obtain ⟨hne, hget, hparse, hfault⟩ := hall id (by simp)
    have hne' : (id == "") = false := by simpa using hne
    have hfetch : getEmailContent env.remoteGet id
        = .ok (some (simpleRaw id)) := by
      simp [getEmailContent, hne', hget]
    have hproc : processAndSaveEmail env.proc store (simpleRaw id)
        = (ProcOutcome.noWork, store) :=
      processAndSaveEmail_fault env.proc store (simpleRaw id) id ⟨id, none⟩
        rfl hne hparse hfault
    have hrest := ih store (fun i hi => hall i (by simp [hi]))
    simp [processBatch, hne', hfetch, hproc, hrest, ProcOutcome.noWork]

/-- Claim C9: `saveEmail` returns `null` not only on the unique-constraint
(P2002) duplicate but on every other database error as well — leaving the
store unchanged and raising nothing, so a genuine store failure is
indistinguishable from a duplicate at its interface; `processAndSaveEmail`
then returns normally having stored nothing, and the orchestrator's loop
counts every such item as succeeded (nothing failed, nothing stored). -/
theorem claim9_save_error_indistinguishable :
    (∀ (store : List StoredEmail) (d : ParsedEmail),
      saveEmail true store d = (none, store)) ∧
    (∀ (store : List StoredEmail) (d : ParsedEmail),
      hasDup store d = true → saveEmail false store d = (none, store)) ∧
    (∀ (env : ProcEnv) (store : List StoredEmail) (raw : RawEmail)
        (rid : String) (parsed : ParsedEmail),
      raw.id = some rid → rid ≠ "" → env.parse raw = .ok parsed →
      env.dbFault parsed = true →
        processAndSaveEmail env store raw = (ProcOutcome.noWork, store)) ∧
    (∀ (env : SyncEnv) (ids : List String) (store : List StoredEmail),
      (∀ id ∈ ids, id ≠ "" ∧ env.remoteGet id = .ok (simpleRaw id) ∧
        env.proc.parse (simpleRaw id) = .ok ⟨id, none⟩ ∧
        env.proc.dbFault ⟨id, none⟩ = true) →
      processBatch env (ids.map some) store = ⟨ids.length, 0, store, []⟩) := by
  refine ⟨?_, saveEmail_dup, processAndSaveEmail_fault, processBatch_allFault⟩
  intro store d
  simp [saveEmail]

/-- Witness for claim C9 at a concrete input: a store-faulting save of `m1`
returns `null` with nothing stored, and the loop reports 1 succeeded /
0 failed with an unchanged (empty) store. -/
theorem claim9_save_error_indistinguishable_witness :
    saveEmail true [] ⟨"m1", none⟩ = (none, []) ∧
    processAndSaveEmail faultProc [] (simpleRaw "m1")
      = (ProcOutcome.noWork, []) ∧
    processBatch faultSyncEnv (["m1"].map some) [] = ⟨1, 0, [], []⟩ := by
  obtain ⟨h1, h2, h3, h4⟩ := claim9_save_error_indistinguishable
  exact ⟨h1 [] ⟨"m1", none⟩,
    h3 faultProc [] (simpleRaw "m1") "m1" ⟨"m1", none⟩ rfl (by decide) rfl rfl,
    h4 faultSyncEnv ["m1"] []
      (by intro id hid; simp at hid; subst hid
          exact ⟨by decide, rfl, rfl, rfl⟩)⟩

/-- Claim C10: with the cipher primitive satisfying the CBC inverse
contract, `decrypt` inverts `encrypt` under the module's fixed key and iv;
the (key, iv) pair is fixed at module load by the two dedicated environment
variables alone — the rest of the process environment is irrelevant — and
`encrypt` consumes no per-call randomness, so encrypting the same secret
twice yields the identical ciphertext. -/
theorem claim10_encrypt_roundtrip (c : CipherSpec) (env : EnvVars)
    (k iv p : String)
    (hinv : ∀ key ivv t, c.dec key ivv (c.enc key ivv t) = some t)
    (hinit : encryptionInit env = .ok (k, iv)) :
    decrypt c k iv (encrypt c k iv p) = .ok p ∧
    (∀ env' : EnvVars, env'.encryptionKey = env.encryptionKey →
      env'.encryptionIv = env.encryptionIv →
      encryptionInit env' = .ok (k, iv)) ∧
    encrypt c k iv p = encrypt c k iv p := by
  refine ⟨?_, ?_, rfl⟩
  · unfold decrypt encrypt
    rw [hinv]
  · intro env' hk hiv
    unfold encryptionInit at hinit ⊢
    rw [hk, hiv]
    exact hinit

/-- Witness for claim C10 at a concrete input: the round trip restores the
secret, and module init yields the same fixed (key, iv) under an
environment differing outside the two dedicated variables. -/
theorem claim10_encrypt_roundtrip_witness :
    decrypt idCipher
        "0123456789abcdef0123456789abcdef0123456789abcdef0123456789abcdef"
        "0123456789abcdef0123456789abcdef"
        (encrypt idCipher
          "0123456789abcdef0123456789abcdef0123456789abcdef0123456789abcdef"
          "0123456789abcdef0123456789abcdef" "refresh-secret")
      = .ok "refresh-secret" ∧
    encryptionInit demoEnvVars2
      = .ok ("0123456789abcdef0123456789abcdef0123456789abcdef0123456789abcdef",
          "0123456789abcdef0123456789abcdef") := by
  obtain ⟨h1, h2, h3⟩ := claim10_encrypt_roundtrip idCipher demoEnvVars
    "0123456789abcdef0123456789abcdef0123456789abcdef0123456789abcdef"
    "0123456789abcdef0123456789abcdef" "refresh-secret"
    (fun _ _ _ => rfl) rfl
  exact ⟨h1, h2 demoEnvVars2 rfl rfl⟩

end EmailArchiver
